import Mathlib

/-!
Verification of the resilient XRPL connection manager
(`src/lib/xrpl/resilient-client.ts`) and its process-wide singleton
accessor (`src/lib/xrpl/client.ts`).

The manager class `ResilientXrplClient` is embedded as a record
`RC.MgrState` holding the same mutable fields the TypeScript class has,
and each method or event handler becomes a pure function on that record.
Asynchronous outcomes of the underlying transport (whether the awaited
`client.connect()` resolves or rejects, whether a transport `disconnect`
throws) are passed in as explicit boolean parameters.  Observable side
effects (listener invocations, browser events dispatched via
`window.dispatchEvent`, log lines for swallowed errors and retry
exhaustion, `setTimeout`-scheduled reconnects) are recorded in dedicated
log fields so theorems can speak about them.

A second, small-step model (`RC.FState` / `RC.fstep`) tracks individual
underlying transport connect attempts together with their not-yet-run
continuations, which is needed to settle the at-most-one-attempt-in-flight
invariant: the composite functional model cannot express the stale
continuation of an attempt aborted by the connect timeout.

A third model (`RC.accessorGetClient`) embeds the module-level accessor
`getClient()` with its failure counter, ceiling 3, and the
`forceReconnect` fallback recursion; the outcomes of the successive
underlying `resilientClient.getClient()` calls are given as a list of
booleans.
-/

namespace RC

/-- Close codes treated as deliberate shutdown, and the retry ceilings,
as defined at the top of `resilient-client.ts` and `client.ts`. -/
def MAX_RECONNECT_ATTEMPTS : Nat := 5

/-- Ceiling of the accessor-level failure counter (`MAX_RETRY_ATTEMPTS`). -/
def ACCESSOR_MAX_RETRY : Nat := 3

/-- Name of the browser event dispatched for a boolean status, as in
`notifyConnectionStatus` and `setupConnectionEvents`. -/
def statusEventName (b : Bool) : String :=
  if b then "xrpl-connected" else "xrpl-disconnected"

/-- A registered connection listener.  Each registration creates a fresh
closure in the source, so listeners are identified by a fresh id;
`isAccessor` marks the one listener installed by the accessor's
`setupConnectionEvents`. -/
structure Listener where
  id : Nat
  isAccessor : Bool
deriving DecidableEq, Repr

/-- One invocation of a listener callback: which listener, the boolean it
received, and whether it was the synchronous call made at registration
time (inside `addConnectionListener`) as opposed to a call made by
`notifyConnectionStatus`. -/
structure Delivery where
  lid : Nat
  value : Bool
  isRegistration : Bool
deriving DecidableEq, Repr

/-- The Connection Handle (`xrpl` `Client`); the manager only ever reads
`isConnected()` from it. -/
structure Handle where
  connected : Bool
deriving DecidableEq, Repr

/-- The fields of `ResilientXrplClient`, plus observation logs and the
module-level `failedAttempts` counter of `client.ts` (reset by the
accessor's listener). -/
structure MgrState where
  client : Option Handle
  isConnecting : Bool
  connectTimeoutArmed : Bool
  reconnectAttempts : Nat
  listeners : List Listener
  nextListenerId : Nat
  lastNotified : Option Bool
  deliveries : List Delivery
  dispatchLog : List String
  scheduledReconnects : Nat
  exhaustedLogs : Nat
  errorLogs : Nat
  failedAttempts : Nat
deriving DecidableEq, Repr

def initialState : MgrState :=
  { client := none
    isConnecting := false
    connectTimeoutArmed := false
    reconnectAttempts := 0
    listeners := []
    nextListenerId := 0
    lastNotified := none
    deliveries := []
    dispatchLog := []
    scheduledReconnects := 0
    exhaustedLogs := 0
    errorLogs := 0
    failedAttempts := 0 }

/-- `isConnected()`: `this.client !== null && this.client.isConnected()`. -/
def isConnected (st : MgrState) : Bool :=
  match st.client with
  | some h => h.connected
  | none => false

/-- Browser events dispatched by a listener body when invoked with `b`.
The accessor's listener (`setupConnectionEvents`) dispatches
`xrpl-connected` / `xrpl-disconnected`; other listeners dispatch
nothing. -/
def listenerDispatches (l : Listener) (b : Bool) : List String :=
  if l.isAccessor then [statusEventName b] else []

/-- Invoke one listener with value `b`.  The accessor's listener also
resets the module-level `failedAttempts` counter to zero when it
observes `true` (`setupConnectionEvents`).  Exceptions thrown by a
listener are caught and logged in the source, so invocation always
proceeds. -/
def invokeListener (st : MgrState) (l : Listener) (b : Bool) (isReg : Bool) : MgrState :=
  { st with
    deliveries := st.deliveries ++ [⟨l.id, b, isReg⟩]
    dispatchLog := st.dispatchLog ++ listenerDispatches l b
    failedAttempts := if l.isAccessor && b then 0 else st.failedAttempts }

/-- `connectionListeners.forEach((listener) => listener(connected))`. -/
def deliverAll (st : MgrState) (ls : List Listener) (b : Bool) : MgrState :=
  ls.foldl (fun acc l => invokeListener acc l b false) st

/-- Concatenation of the browser events dispatched by a list of listener
bodies, in order. -/
def dispatchesFor (ls : List Listener) (b : Bool) : List String :=
  match ls with
  | [] => []
  | l :: rest => listenerDispatches l b ++ dispatchesFor rest b

/-- `notifyConnectionStatus(connected)`: return early if the last
notified status equals `connected`; otherwise record the new status,
deliver it to every listener in order, then dispatch the corresponding
browser event. -/
def notifyConnectionStatus (st : MgrState) (b : Bool) : MgrState :=
  if st.lastNotified = some b then st
  else
    { deliverAll { st with lastNotified := some b } st.listeners b with
      dispatchLog :=
        (deliverAll { st with lastNotified := some b } st.listeners b).dispatchLog
          ++ [statusEventName b] }

/-- `addConnectionListener(listener)`: push the listener, then invoke it
once, synchronously, with the current status
(`this.client ? this.client.isConnected() : false`). -/
def addConnectionListener (st : MgrState) (isAcc : Bool) : MgrState :=
  invokeListener
    { st with listeners := st.listeners ++ [⟨st.nextListenerId, isAcc⟩]
              nextListenerId := st.nextListenerId + 1 }
    ⟨st.nextListenerId, isAcc⟩
    (isConnected { st with listeners := st.listeners ++ [⟨st.nextListenerId, isAcc⟩]
                           nextListenerId := st.nextListenerId + 1 })
    true

/-- The `connected` event handler installed in `connect()`: clear the
connect timeout, reset the reconnect-attempt counter, notify `true`. -/
def onConnected (st : MgrState) : MgrState :=
  notifyConnectionStatus
    { st with connectTimeoutArmed := false, reconnectAttempts := 0 } true

/-- The conditional tail of the `disconnected` event handler: schedule a
delayed reconnect on abnormal closure when not already connecting and
the attempt counter is below the ceiling; at the ceiling, only log
exhaustion. -/
def scheduleOnDisconnect (st : MgrState) (code : Nat) : MgrState :=
  if code ≠ 1000 ∧ code ≠ 1001 ∧ st.isConnecting = false then
    if st.reconnectAttempts < MAX_RECONNECT_ATTEMPTS then
      { st with reconnectAttempts := st.reconnectAttempts + 1
                scheduledReconnects := st.scheduledReconnects + 1 }
    else
      { st with exhaustedLogs := st.exhaustedLogs + 1 }
  else st

/-- The `disconnected(code, reason)` event handler installed in
`connect()`: notify `false`, then conditionally schedule an automatic
reconnect. -/
def onDisconnected (st : MgrState) (code : Nat) : MgrState :=
  scheduleOnDisconnect (notifyConnectionStatus st false) code

/-- The connect-timeout callback armed by `setConnectTimeout()`:
best-effort disconnect of the handle (errors ignored), drop the handle,
clear the connecting flag, notify `false`. -/
def onConnectTimeout (st : MgrState) : MgrState :=
  notifyConnectionStatus
    { st with client := none, isConnecting := false, connectTimeoutArmed := false }
    false

/-- The synchronous prefix of a fresh connect attempt in `connect()`:
set `isConnecting`, arm the connect timeout, create a new (not yet
connected) Connection Handle. -/
def startAttempt (st : MgrState) : MgrState :=
  { st with isConnecting := true, connectTimeoutArmed := true, client := some ⟨false⟩ }

/-- Continuation of `connect()` when the underlying transport connect
succeeds: the handle becomes connected and the `connected` event handler
runs, then the `await` resolves (clear timeout, clear `isConnecting`). -/
def connectAttemptSuccess (st : MgrState) : MgrState :=
  { onConnected { st with client := some ⟨true⟩ } with
    connectTimeoutArmed := false, isConnecting := false }

/-- The `catch` block of `connect()`: clear the timeout, clear
`isConnecting`, and, when the attempt counter is below the ceiling,
increment it and schedule a delayed `reconnect()`; the error is then
rethrown. -/
def connectAttemptFailure (st : MgrState) : MgrState :=
  if st.reconnectAttempts < MAX_RECONNECT_ATTEMPTS then
    { st with connectTimeoutArmed := false, isConnecting := false
              reconnectAttempts := st.reconnectAttempts + 1
              scheduledReconnects := st.scheduledReconnects + 1 }
  else
    { st with connectTimeoutArmed := false, isConnecting := false }

inductive ConnectOutcome
  | ok
  | err
deriving DecidableEq, Repr

/-- `connect()` as one composite step.  `succeeds` is the outcome of the
awaited transport connect; `waitSucceeds` is the outcome of the polling
wait used when a connect attempt is already in flight (resolve with the
handle, or reject with the wait timeout).  The polling wait does not
change manager state. -/
def connectRun (st : MgrState) (succeeds waitSucceeds : Bool) :
    MgrState × ConnectOutcome :=
  if isConnected st = true then (st, ConnectOutcome.ok)
  else if st.isConnecting = true then
    (st, if waitSucceeds = true then ConnectOutcome.ok else ConnectOutcome.err)
  else if succeeds = true then
    (connectAttemptSuccess (startAttempt st), ConnectOutcome.ok)
  else
    (connectAttemptFailure (startAttempt st), ConnectOutcome.err)

/-- The teardown inside `reconnect()`: best-effort disconnect of an
existing handle (errors caught and logged), then drop the reference. -/
def teardown (st : MgrState) : MgrState :=
  match st.client with
  | some _ => { st with client := none }
  | none => st

/-- `disconnect()`: clear any pending connect timeout; if a handle is
present, best-effort disconnect it (a throwing transport disconnect is
caught and logged), clear the reference, and notify `false`.  The
returned `Except` is the promise observed by the caller. -/
def disconnectRun (st : MgrState) (transportThrows : Bool) :
    MgrState × Except String Unit :=
  match st.client with
  | some _ =>
      (notifyConnectionStatus
        { st with connectTimeoutArmed := false, client := none
                  errorLogs := st.errorLogs + (if transportThrows then 1 else 0) }
        false,
       Except.ok ())
  | none => ({ st with connectTimeoutArmed := false }, Except.ok ())

/-- `reconnect()`: clear any pending connect timeout first; if already
connecting and a handle exists, only wait (poll) for that attempt; if
already connected, return the handle unchanged; otherwise tear down any
existing handle, wait the settle delay, and delegate to `connect()`. -/
def reconnectRun (st : MgrState) (succeeds waitSucceeds : Bool) :
    MgrState × ConnectOutcome :=
  if st.isConnecting = true ∧ st.client.isSome = true then
    ({ st with connectTimeoutArmed := false },
     if waitSucceeds = true then ConnectOutcome.ok else ConnectOutcome.err)
  else if isConnected st = true then
    ({ st with connectTimeoutArmed := false }, ConnectOutcome.ok)
  else
    connectRun (teardown { st with connectTimeoutArmed := false }) succeeds waitSucceeds

/-- Manager operations and transport events, used to quantify over all
interleavings the event loop can produce. -/
inductive MgrOp
  | addListener (isAccessor : Bool)
  | connected
  | disconnected (code : Nat)
  | connectTimeout
  | connectCall (succeeds waitSucceeds : Bool)
  | reconnectCall (succeeds waitSucceeds : Bool)
  | disconnectCall (transportThrows : Bool)
deriving DecidableEq, Repr

/-- Apply one operation.  The `connected` / `disconnected` transport
events first update the handle's own connectivity, then run the
corresponding handler installed in `connect()`. -/
def applyOp (st : MgrState) : MgrOp → MgrState
  | MgrOp.addListener a => addConnectionListener st a
  | MgrOp.connected =>
      onConnected { st with client := st.client.map (fun _ => ⟨true⟩) }
  | MgrOp.disconnected code =>
      onDisconnected { st with client := st.client.map (fun _ => ⟨false⟩) } code
  | MgrOp.connectTimeout => onConnectTimeout st
  | MgrOp.connectCall s w => (connectRun st s w).1
  | MgrOp.reconnectCall s w => (reconnectRun st s w).1
  | MgrOp.disconnectCall t => (disconnectRun st t).1

def runOpsFrom (st : MgrState) : List MgrOp → MgrState
  | [] => st
  | op :: rest => runOpsFrom (applyOp st op) rest

/-- Run a sequence of operations from the freshly constructed manager. -/
def runOps (ops : List MgrOp) : MgrState :=
  runOpsFrom initialState ops

/-- The values delivered to listener `lid` by `notifyConnectionStatus`
(excluding the synchronous call made at registration time), in
chronological order. -/
def notifyLog (lid : Nat) (st : MgrState) : List Bool :=
  (st.deliveries.filter (fun d => d.lid == lid && !d.isRegistration)).map
    (fun d => d.value)

/-! ### Small-step model of underlying connect attempts

Tracks each physical transport connect attempt issued by `connect()`,
whether it was aborted by the connect-timeout callback (which best-effort
disconnects the handle and drops it), and whether the `await`
continuation (success path or `catch` block) has run yet.  A rejection
continuation can run long after the timeout aborted its attempt, which is
exactly the interleaving that matters for the one-attempt-in-flight
question. -/

inductive AStat
  | pending
  | aborted
  | settled
deriving DecidableEq, Repr

/-- One underlying transport connect attempt and its continuation. -/
structure FAttempt where
  status : AStat
  connected : Bool
  contDone : Bool
deriving DecidableEq, Repr

/-- The manager fields relevant to attempt bookkeeping: attempts are
indexed by creation order, `client` names the attempt whose handle the
manager currently holds. -/
structure FState where
  attempts : List FAttempt
  client : Option Nat
  isConnecting : Bool
  timeoutArmed : Bool
deriving DecidableEq, Repr

def finit : FState := ⟨[], none, false, false⟩

/-- `this.client && this.client.isConnected()` in the small-step model. -/
def fclientConnected (s : FState) : Bool :=
  match s.client with
  | some n =>
      match s.attempts[n]? with
      | some a => a.connected
      | none => false
  | none => false

/-- Mark a pending attempt aborted (the timeout callback best-effort
disconnects its handle). -/
def markAborted (a : FAttempt) : FAttempt :=
  if a.status = AStat.pending then { a with status := AStat.aborted } else a

def abortAt (ls : List FAttempt) (n : Nat) : List FAttempt :=
  match ls[n]? with
  | some a => ls.set n (markAborted a)
  | none => ls

/-- Events of the small-step model:
`connectStart` is a `connect()` call reaching the fresh-attempt branch
(synchronous prefix through issuing the underlying transport connect);
`connectPoll` is a `connect()` call that finds `isConnecting` set and
only starts a polling wait;
`timeoutFire` is the connect-timeout callback;
`settleOk n` / `settleErr n` run the success continuation / `catch`
block of attempt `n` when its promise settles. -/
inductive FEv
  | connectStart
  | connectPoll
  | timeoutFire
  | settleOk (n : Nat)
  | settleErr (n : Nat)
deriving DecidableEq, Repr

def fstep (s : FState) : FEv → Option FState
  | FEv.connectStart =>
      if fclientConnected s = false ∧ s.isConnecting = false then
        some { attempts := s.attempts ++ [⟨AStat.pending, false, false⟩]
               client := some s.attempts.length
               isConnecting := true
               timeoutArmed := true }
      else none
  | FEv.connectPoll =>
      if s.isConnecting = true then some s else none
  | FEv.timeoutFire =>
      if s.timeoutArmed = true then
        some { attempts :=
                 match s.client with
                 | some n => abortAt s.attempts n
                 | none => s.attempts
               client := none
               isConnecting := false
               timeoutArmed := false }
      else none
  | FEv.settleOk n =>
      match s.attempts[n]? with
      | some a =>
          if a.status = AStat.pending ∧ a.contDone = false then
            some { s with attempts := s.attempts.set n ⟨AStat.settled, true, true⟩
                          isConnecting := false
                          timeoutArmed := false }
          else none
      | none => none
  | FEv.settleErr n =>
      match s.attempts[n]? with
      | some a =>
          if (a.status = AStat.pending ∨ a.status = AStat.aborted) ∧ a.contDone = false then
            some { s with attempts := s.attempts.set n ⟨AStat.settled, false, true⟩
                          isConnecting := false
                          timeoutArmed := false }
          else none
      | none => none

def frunFrom (s : FState) : List FEv → Option FState
  | [] => some s
  | ev :: rest =>
      match fstep s ev with
      | some s2 => frunFrom s2 rest
      | none => none

/-- Run a sequence of events from the fresh manager. -/
def frun (evs : List FEv) : Option FState :=
  frunFrom finit evs

/-- Number of underlying transport connect attempts currently in flight
(issued, not settled, not aborted by the timeout callback). -/
def inFlight (s : FState) : Nat :=
  s.attempts.countP (fun a => a.status == AStat.pending)

/-! ### The singleton accessor

`getClient()` of `client.ts`: on failure of the underlying
`resilientClient.getClient()`, increment the module-level counter; below
the ceiling, fall back to `forceReconnect()` (which discards the manager
instance and calls `getClient()` again, consuming the next underlying
outcome); at the ceiling, show the toast and throw the terminal error.
The counter is *not* touched on the success path of `getClient()` itself
(it is reset only by the accessor's connection listener, see
`invokeListener`). -/

inductive AccOutcome
  | ok
  | terminal
deriving DecidableEq, Repr

structure AccResult where
  failedAttempts : Nat
  outcome : AccOutcome
  toastShown : Bool
deriving DecidableEq, Repr

def accessorGetClient (fa : Nat) : List Bool → AccResult
  | [] => ⟨fa, AccOutcome.ok, false⟩
  | u :: rest =>
      if u = true then ⟨fa, AccOutcome.ok, false⟩
      else if fa + 1 < ACCESSOR_MAX_RETRY then accessorGetClient (fa + 1) rest
      else ⟨fa + 1, AccOutcome.terminal, true⟩

/-- Invariant maintained by every manager operation: listener ids are
distinct and bounded by the id counter; a listener with a nonempty
notification log is registered; the last value delivered through
`notifyConnectionStatus` equals the tracked `lastNotified`; and no
listener's notification log has two adjacent equal values. -/
def Inv (st : MgrState) : Prop :=
  (st.listeners.map (fun l => l.id)).Nodup ∧
  (∀ l ∈ st.listeners, l.id < st.nextListenerId) ∧
  (∀ lid : Nat, notifyLog lid st ≠ [] → ∃ l ∈ st.listeners, l.id = lid) ∧
  (∀ lid : Nat, notifyLog lid st ≠ [] →
      (notifyLog lid st).getLast? = st.lastNotified) ∧
  (∀ lid : Nat, List.Chain' (fun x y => x ≠ y) (notifyLog lid st))

/-- Inductive invariant of timeout-free executions: no attempt has been
aborted, at most one attempt is in flight, and an attempt can only be in
flight while `isConnecting` is set. -/
def FInv (s : FState) : Prop :=
  (∀ a ∈ s.attempts, a.status ≠ AStat.aborted) ∧
  inFlight s ≤ 1 ∧
  (s.isConnecting = false → inFlight s = 0)

/-- The manager state right after the accessor has constructed the
manager and `setupConnectionEvents` has installed its one listener. -/
def accessorManagerState : MgrState :=
  { initialState with listeners := [⟨0, true⟩], nextListenerId := 1 }

/-- A manager with one connect attempt in flight and its connect timeout
armed. -/
def connectingState : MgrState :=
  { initialState with isConnecting := true, client := some ⟨false⟩,
                      connectTimeoutArmed := true }

/-- The small-step state after one connect attempt has started. -/
def oneAttemptState : FState :=
  { attempts := [⟨AStat.pending, false, false⟩], client := some 0,
    isConnecting := true, timeoutArmed := true }

/-! ### Basic lemmas about listener delivery -/

theorem deliverAll_nil (st : MgrState) (b : Bool) : deliverAll st [] b = st := rfl

theorem deliverAll_cons (st : MgrState) (l : Listener) (ls : List Listener) (b : Bool) :
    deliverAll st (l :: ls) b = deliverAll (invokeListener st l b false) ls b := rfl

theorem deliverAll_client (ls : List Listener) (st : MgrState) (b : Bool) :
    (deliverAll st ls b).client = st.client := by
  induction ls generalizing st with
  | nil => rfl
  | cons l ls ih => rw [deliverAll_cons, ih]; rfl

theorem deliverAll_isConnecting (ls : List Listener) (st : MgrState) (b : Bool) :
    (deliverAll st ls b).isConnecting = st.isConnecting := by
  induction ls generalizing st with
  | nil => rfl
  | cons l ls ih => rw [deliverAll_cons, ih]; rfl

theorem deliverAll_connectTimeoutArmed (ls : List Listener) (st : MgrState) (b : Bool) :
    (deliverAll st ls b).connectTimeoutArmed = st.connectTimeoutArmed := by
  induction ls generalizing st with
  | nil => rfl
  | cons l ls ih => rw [deliverAll_cons, ih]; rfl

theorem deliverAll_reconnectAttempts (ls : List Listener) (st : MgrState) (b : Bool) :
    (deliverAll st ls b).reconnectAttempts = st.reconnectAttempts := by
  induction ls generalizing st with
  | nil => rfl
  | cons l ls ih => rw [deliverAll_cons, ih]; rfl

theorem deliverAll_listeners (ls : List Listener) (st : MgrState) (b : Bool) :
    (deliverAll st ls b).listeners = st.listeners := by
  induction ls generalizing st with
  | nil => rfl
  | cons l ls ih => rw [deliverAll_cons, ih]; rfl

theorem deliverAll_nextListenerId (ls : List Listener) (st : MgrState) (b : Bool) :
    (deliverAll st ls b).nextListenerId = st.nextListenerId := by
  induction ls generalizing st with
  | nil => rfl
  | cons l ls ih => rw [deliverAll_cons, ih]; rfl

theorem deliverAll_lastNotified (ls : List Listener) (st : MgrState) (b : Bool) :
    (deliverAll st ls b).lastNotified = st.lastNotified := by
  induction ls generalizing st with
  | nil => rfl
  | cons l ls ih => rw [deliverAll_cons, ih]; rfl

theorem deliverAll_scheduledReconnects (ls : List Listener) (st : MgrState) (b : Bool) :
    (deliverAll st ls b).scheduledReconnects = st.scheduledReconnects := by
  induction ls generalizing st with
  | nil => rfl
  | cons l ls ih => rw [deliverAll_cons, ih]; rfl

theorem deliverAll_exhaustedLogs (ls : List Listener) (st : MgrState) (b : Bool) :
    (deliverAll st ls b).exhaustedLogs = st.exhaustedLogs := by
  induction ls generalizing st with
  | nil => rfl
  | cons l ls ih => rw [deliverAll_cons, ih]; rfl

theorem deliverAll_errorLogs (ls : List Listener) (st : MgrState) (b : Bool) :
    (deliverAll st ls b).errorLogs = st.errorLogs := by
  induction ls generalizing st with
  | nil => rfl
  | cons l ls ih => rw [deliverAll_cons, ih]; rfl

theorem deliverAll_dispatchLog (ls : List Listener) (st : MgrState) (b : Bool) :
    (deliverAll st ls b).dispatchLog = st.dispatchLog ++ dispatchesFor ls b := by
  induction ls generalizing st with
  | nil => simp [deliverAll_nil, dispatchesFor]
  | cons l ls ih =>
      rw [deliverAll_cons, ih]
      simp [invokeListener, dispatchesFor, List.append_assoc]

/-! ### Lemmas about the per-listener notification logs -/

theorem notifyLog_invoke (lid : Nat) (st : MgrState) (l : Listener) (b : Bool) :
    notifyLog lid (invokeListener st l b false) =
      notifyLog lid st ++ (if l.id == lid then [b] else []) := by
  unfold notifyLog invokeListener
  cases h : (l.id == lid) <;>
    simp [List.filter_append, List.filter_cons, h]

theorem notifyLog_invoke_reg (lid : Nat) (st : MgrState) (l : Listener) (c : Bool) :
    notifyLog lid (invokeListener st l c true) = notifyLog lid st := by
  unfold notifyLog invokeListener
  simp [List.filter_append, List.filter_cons]

theorem notifyLog_deliverAll (lid : Nat) (ls : List Listener) (st : MgrState) (b : Bool) :
    notifyLog lid (deliverAll st ls b) =
      notifyLog lid st ++ (ls.filter (fun l => l.id == lid)).map (fun _ => b) := by
  induction ls generalizing st with
  | nil => simp [deliverAll_nil]
  | cons l ls ih =>
      rw [deliverAll_cons, ih, notifyLog_invoke]
      cases h : (l.id == lid) <;>
        simp [List.filter_cons, h, List.append_assoc]

/-! ### Lemmas about `notifyConnectionStatus` -/

theorem notify_client (st : MgrState) (b : Bool) :
    (notifyConnectionStatus st b).client = st.client := by
  unfold notifyConnectionStatus
  split
  · rfl
  · rw [show ({ deliverAll { st with lastNotified := some b } st.listeners b with
        dispatchLog := (deliverAll { st with lastNotified := some b } st.listeners b).dispatchLog
          ++ [statusEventName b] } : MgrState).client
      = (deliverAll { st with lastNotified := some b } st.listeners b).client from rfl,
      deliverAll_client]

theorem notify_isConnecting (st : MgrState) (b : Bool) :
    (notifyConnectionStatus st b).isConnecting = st.isConnecting := by
  unfold notifyConnectionStatus
  split
  · rfl
  · rw [show ({ deliverAll { st with lastNotified := some b } st.listeners b with
        dispatchLog := (deliverAll { st with lastNotified := some b } st.listeners b).dispatchLog
          ++ [statusEventName b] } : MgrState).isConnecting
      = (deliverAll { st with lastNotified := some b } st.listeners b).isConnecting from rfl,
      deliverAll_isConnecting]

theorem notify_connectTimeoutArmed (st : MgrState) (b : Bool) :
    (notifyConnectionStatus st b).connectTimeoutArmed = st.connectTimeoutArmed := by
  unfold notifyConnectionStatus
  split
  · rfl
  · rw [show ({ deliverAll { st with lastNotified := some b } st.listeners b with
        dispatchLog := (deliverAll { st with lastNotified := some b } st.listeners b).dispatchLog
          ++ [statusEventName b] } : MgrState).connectTimeoutArmed
      = (deliverAll { st with lastNotified := some b } st.listeners b).connectTimeoutArmed from rfl,
      deliverAll_connectTimeoutArmed]

theorem notify_reconnectAttempts (st : MgrState) (b : Bool) :
    (notifyConnectionStatus st b).reconnectAttempts = st.reconnectAttempts := by
  unfold notifyConnectionStatus
  split
  · rfl
  · rw [show ({ deliverAll { st with lastNotified := some b } st.listeners b with
        dispatchLog := (deliverAll { st with lastNotified := some b } st.listeners b).dispatchLog
          ++ [statusEventName b] } : MgrState).reconnectAttempts
      = (deliverAll { st with lastNotified := some b } st.listeners b).reconnectAttempts from rfl,
      deliverAll_reconnectAttempts]

theorem notify_listeners (st : MgrState) (b : Bool) :
    (notifyConnectionStatus st b).listeners = st.listeners := by
  unfold notifyConnectionStatus
  split
  · rfl
  · rw [show ({ deliverAll { st with lastNotified := some b } st.listeners b with
        dispatchLog := (deliverAll { st with lastNotified := some b } st.listeners b).dispatchLog
          ++ [statusEventName b] } : MgrState).listeners
      = (deliverAll { st with lastNotified := some b } st.listeners b).listeners from rfl,
      deliverAll_listeners]

theorem notify_nextListenerId (st : MgrState) (b : Bool) :
    (notifyConnectionStatus st b).nextListenerId = st.nextListenerId := by
  unfold notifyConnectionStatus
  split
  · rfl
  · rw [show ({ deliverAll { st with lastNotified := some b } st.listeners b with
        dispatchLog := (deliverAll { st with lastNotified := some b } st.listeners b).dispatchLog
          ++ [statusEventName b] } : MgrState).nextListenerId
      = (deliverAll { st with lastNotified := some b } st.listeners b).nextListenerId from rfl,
      deliverAll_nextListenerId]

theorem notify_scheduledReconnects (st : MgrState) (b : Bool) :
    (notifyConnectionStatus st b).scheduledReconnects = st.scheduledReconnects := by
  unfold notifyConnectionStatus
  split
  · rfl
  · rw [show ({ deliverAll { st with lastNotified := some b } st.listeners b with
        dispatchLog := (deliverAll { st with lastNotified := some b } st.listeners b).dispatchLog
          ++ [statusEventName b] } : MgrState).scheduledReconnects
      = (deliverAll { st with lastNotified := some b } st.listeners b).scheduledReconnects from rfl,
      deliverAll_scheduledReconnects]

theorem notify_exhaustedLogs (st : MgrState) (b : Bool) :
    (notifyConnectionStatus st b).exhaustedLogs = st.exhaustedLogs := by
  unfold notifyConnectionStatus
  split
  · rfl
  · rw [show ({ deliverAll { st with lastNotified := some b } st.listeners b with
        dispatchLog := (deliverAll { st with lastNotified := some b } st.listeners b).dispatchLog
          ++ [statusEventName b] } : MgrState).exhaustedLogs
      = (deliverAll { st with lastNotified := some b } st.listeners b).exhaustedLogs from rfl,
      deliverAll_exhaustedLogs]

theorem notify_errorLogs (st : MgrState) (b : Bool) :
    (notifyConnectionStatus st b).errorLogs = st.errorLogs := by
  unfold notifyConnectionStatus
  split
  · rfl
  · rw [show ({ deliverAll { st with lastNotified := some b } st.listeners b with
        dispatchLog := (deliverAll { st with lastNotified := some b } st.listeners b).dispatchLog
          ++ [statusEventName b] } : MgrState).errorLogs
      = (deliverAll { st with lastNotified := some b } st.listeners b).errorLogs from rfl,
      deliverAll_errorLogs]

theorem notify_lastNotified (st : MgrState) (b : Bool) :
    (notifyConnectionStatus st b).lastNotified = some b := by
  unfold notifyConnectionStatus
  split
  · assumption
  · rw [show ({ deliverAll { st with lastNotified := some b } st.listeners b with
        dispatchLog := (deliverAll { st with lastNotified := some b } st.listeners b).dispatchLog
          ++ [statusEventName b] } : MgrState).lastNotified
      = (deliverAll { st with lastNotified := some b } st.listeners b).lastNotified from rfl,
      deliverAll_lastNotified]

theorem notify_of_suppressed (st : MgrState) (b : Bool) (h : st.lastNotified = some b) :
    notifyConnectionStatus st b = st := by
  unfold notifyConnectionStatus
  rw [if_pos h]

theorem notifyLog_notify (lid : Nat) (st : MgrState) (b : Bool) :
    notifyLog lid (notifyConnectionStatus st b) =
      if st.lastNotified = some b then notifyLog lid st
      else notifyLog lid st ++ (st.listeners.filter (fun l => l.id == lid)).map (fun _ => b) := by
  unfold notifyConnectionStatus
  split
  · rfl
  · rw [show notifyLog lid ({ deliverAll { st with lastNotified := some b } st.listeners b with
        dispatchLog := (deliverAll { st with lastNotified := some b } st.listeners b).dispatchLog
          ++ [statusEventName b] } : MgrState)
      = notifyLog lid (deliverAll { st with lastNotified := some b } st.listeners b) from rfl,
      notifyLog_deliverAll]
    rfl

theorem notify_dispatchLog (st : MgrState) (b : Bool) (h : ¬ st.lastNotified = some b) :
    (notifyConnectionStatus st b).dispatchLog =
      st.dispatchLog ++ dispatchesFor st.listeners b ++ [statusEventName b] := by
  unfold notifyConnectionStatus
  rw [if_neg h]
  rw [show ({ deliverAll { st with lastNotified := some b } st.listeners b with
        dispatchLog := (deliverAll { st with lastNotified := some b } st.listeners b).dispatchLog
          ++ [statusEventName b] } : MgrState).dispatchLog
      = (deliverAll { st with lastNotified := some b } st.listeners b).dispatchLog
          ++ [statusEventName b] from rfl,
      deliverAll_dispatchLog]

/-! ### Helper lemmas on lists -/

theorem filter_none {α : Type} {p : α → Bool} :
    ∀ ls : List α, (∀ l ∈ ls, p l = false) → ls.filter p = [] := by
  intro ls h
  induction ls with
  | nil => rfl
  | cons l ls ih =>
      rw [List.filter_cons]
      have hl := h l (List.mem_cons_self l ls)
      rw [hl]
      simp only [Bool.false_eq_true, if_false]
      exact ih (fun x hx => h x (List.mem_cons_of_mem l hx))

theorem mem_of_filter_ne {α : Type} {p : α → Bool} :
    ∀ ls : List α, ls.filter p ≠ [] → ∃ l ∈ ls, p l = true := by
  intro ls h
  induction ls with
  | nil => exact absurd rfl h
  | cons l ls ih =>
      rw [List.filter_cons] at h
      by_cases hp : p l = true
      · exact ⟨l, List.mem_cons_self l ls, hp⟩
      · rw [if_neg (by simp [hp])] at h
        obtain ⟨x, hx, hpx⟩ := ih h
        exact ⟨x, List.mem_cons_of_mem l hx, hpx⟩

theorem nodup_concat_of (xs : List Nat) (n : Nat)
    (h1 : xs.Nodup) (h2 : ∀ x ∈ xs, x ≠ n) : (xs ++ [n]).Nodup := by
  induction xs with
  | nil => simp
  | cons x xs ih =>
      rw [List.cons_append, List.nodup_cons]
      rw [List.nodup_cons] at h1
      refine ⟨?_, ih h1.2 (fun y hy => h2 y (List.mem_cons_of_mem x hy))⟩
      intro hmem
      rcases List.mem_append.mp hmem with hl | hr
      · exact h1.1 hl
      · exact h2 x (List.mem_cons_self x xs) (List.mem_singleton.mp hr)

theorem getLast_append_singleton {α : Type} (xs : List α) (a : α) :
    (xs ++ [a]).getLast? = some a := by
  induction xs with
  | nil => rfl
  | cons x xs ih =>
      rw [List.cons_append, List.getLast?_cons, ih]
      rfl

/-- The block of deliveries one genuine notification appends to listener
`lid`'s log: empty when `lid` is not registered, a single value when
listener ids are distinct. -/
theorem block_small (lid : Nat) (b : Bool) {ls : List Listener}
    (hnd : (ls.map (fun l => l.id)).Nodup) :
    ((ls.filter (fun l => l.id == lid)).map (fun _ => b)) = [] ∨
    ((ls.filter (fun l => l.id == lid)).map (fun _ => b)) = [b] := by
  induction ls with
  | nil => left; rfl
  | cons l ls ih =>
      rw [List.map_cons, List.nodup_cons] at hnd
      rw [List.filter_cons]
      cases h : (l.id == lid) with
      | false =>
          simp only [Bool.false_eq_true, if_false]
          exact ih hnd.2
      | true =>
          simp only [if_true]
          have hid : l.id = lid := by simpa using h
          have hz : ls.filter (fun l2 => l2.id == lid) = [] := by
            apply filter_none
            intro l2 hl2
            have hne : l2.id ≠ lid := by
              intro he
              apply hnd.1
              rw [hid, ← he]
              exact List.mem_map.mpr ⟨l2, hl2, rfl⟩
            simpa using hne
          right
          rw [hz]
          rfl

/-! ### The notification de-duplication invariant -/

theorem Inv_initial : Inv initialState := by
  refine ⟨by simp [initialState], by simp [initialState], ?_, ?_, ?_⟩ <;>
    intro lid <;> simp [notifyLog, initialState]

theorem Inv_eqFields {st st2 : MgrState}
    (h1 : st2.listeners = st.listeners) (h2 : st2.nextListenerId = st.nextListenerId)
    (h3 : st2.deliveries = st.deliveries) (h4 : st2.lastNotified = st.lastNotified)
    (h : Inv st) : Inv st2 := by
  have hlog : ∀ lid, notifyLog lid st2 = notifyLog lid st := by
    intro lid; unfold notifyLog; rw [h3]
  obtain ⟨c1, c2, c3, c4, c5⟩ := h
  refine ⟨by rw [h1]; exact c1, by rw [h1, h2]; exact c2, ?_, ?_, ?_⟩
  · intro lid hne
    rw [hlog] at hne
    rw [h1]
    exact c3 lid hne
  · intro lid hne
    rw [hlog] at hne ⊢
    rw [h4]
    exact c4 lid hne
  · intro lid
    rw [hlog]
    exact c5 lid

theorem Inv_notify (st : MgrState) (b : Bool) (h : Inv st) :
    Inv (notifyConnectionStatus st b) := by
  by_cases hg : st.lastNotified = some b
  · rw [notify_of_suppressed st b hg]; exact h
  · obtain ⟨hnd, hbound, hmem, hlast, hchain⟩ := h
    have hlog : ∀ lid, notifyLog lid (notifyConnectionStatus st b) =
        notifyLog lid st ++ (st.listeners.filter (fun l => l.id == lid)).map (fun _ => b) := by
      intro lid
      rw [notifyLog_notify, if_neg hg]
    refine ⟨?_, ?_, ?_, ?_, ?_⟩
    · rw [notify_listeners]; exact hnd
    · rw [notify_listeners, notify_nextListenerId]; exact hbound
    · intro lid hne
      rw [hlog] at hne
      rw [notify_listeners]
      rcases block_small lid b hnd with hb | hb
      · rw [hb, List.append_nil] at hne
        exact hmem lid hne
      · have hfne : st.listeners.filter (fun l => l.id == lid) ≠ [] := by
          intro hc
          rw [hc] at hb
          exact absurd hb.symm (by simp)
        obtain ⟨l, hl, hpl⟩ := mem_of_filter_ne _ hfne
        exact ⟨l, hl, by simpa using hpl⟩
    · intro lid hne
      rw [hlog] at hne ⊢
      rw [notify_lastNotified]
      rcases block_small lid b hnd with hb | hb
      · -- the appended block is empty, so lid is unregistered; but then
        -- its log was already empty, contradiction
        rw [hb, List.append_nil] at hne ⊢
        obtain ⟨l, hl, hid⟩ := hmem lid hne
        have : l ∈ st.listeners.filter (fun l2 => l2.id == lid) :=
          List.mem_filter.mpr ⟨hl, by simp [hid]⟩
        have hfne : st.listeners.filter (fun l2 => l2.id == lid) ≠ [] :=
          List.ne_nil_of_mem this
        have : ((st.listeners.filter (fun l2 => l2.id == lid)).map (fun _ => b)) ≠ [] := by
          intro hc
          exact hfne (List.map_eq_nil_iff.mp hc)
        exact absurd hb this
      · rw [hb]
        exact getLast_append_singleton _ b
    · intro lid
      rw [hlog]
      rcases block_small lid b hnd with hb | hb
      · rw [hb, List.append_nil]
        exact hchain lid
      · rw [hb]
        rw [List.chain'_append]
        refine ⟨hchain lid, List.chain'_singleton b, ?_⟩
        intro x hx y hy
        have hyb : y = b := by
          simp only [List.head?] at hy
          exact Option.mem_unique hy rfl
        have hxne : notifyLog lid st ≠ [] := by
          intro hc
          rw [hc] at hx
          exact Option.not_mem_none x hx
        have hxl : (notifyLog lid st).getLast? = st.lastNotified := hlast lid hxne
        have hxv : st.lastNotified = some x := by
          rw [← hxl]
          exact (Option.mem_def.mp hx).symm ▸ rfl
        intro hxy
        apply hg
        rw [hxv, hxy, hyb]

theorem Inv_add (st : MgrState) (a : Bool) (h : Inv st) :
    Inv (addConnectionListener st a) := by
  obtain ⟨hnd, hbound, hmem, hlast, hchain⟩ := h
  have hlog : ∀ lid, notifyLog lid (addConnectionListener st a) = notifyLog lid st := by
    intro lid
    unfold addConnectionListener
    rw [notifyLog_invoke_reg]
    rfl
  have hlis : (addConnectionListener st a).listeners
      = st.listeners ++ [⟨st.nextListenerId, a⟩] := rfl
  have hnext : (addConnectionListener st a).nextListenerId = st.nextListenerId + 1 := rfl
  have hln : (addConnectionListener st a).lastNotified = st.lastNotified := rfl
  refine ⟨?_, ?_, ?_, ?_, ?_⟩
  · rw [hlis, List.map_append]
    exact nodup_concat_of _ _ hnd (by
      intro x hx
      obtain ⟨l, hl, hid⟩ := List.mem_map.mp hx
      exact hid ▸ Nat.ne_of_lt (hbound l hl))
  · rw [hlis, hnext]
    intro l hl
    rcases List.mem_append.mp hl with h1 | h1
    · exact Nat.lt_trans (hbound l h1) (Nat.lt_succ_self _)
    · rw [List.mem_singleton.mp h1]
      exact Nat.lt_succ_self _
  · intro lid hne
    rw [hlog] at hne
    rw [hlis]
    obtain ⟨l, hl, hid⟩ := hmem lid hne
    exact ⟨l, List.mem_append_left _ hl, hid⟩
  · intro lid hne
    rw [hlog] at hne ⊢
    rw [hln]
    exact hlast lid hne
  · intro lid
    rw [hlog]
    exact hchain lid

theorem Inv_onConnected (st : MgrState) (h : Inv st) : Inv (onConnected st) := by
  unfold onConnected
  exact Inv_notify _ _ (Inv_eqFields rfl rfl rfl rfl h)

theorem Inv_scheduleOnDisconnect (st : MgrState) (code : Nat) (h : Inv st) :
    Inv (scheduleOnDisconnect st code) := by
  unfold scheduleOnDisconnect
  split
  · split
    · exact Inv_eqFields rfl rfl rfl rfl h
    · exact Inv_eqFields rfl rfl rfl rfl h
  · exact h

theorem Inv_onDisconnected (st : MgrState) (code : Nat) (h : Inv st) :
    Inv (onDisconnected st code) := by
  unfold onDisconnected
  exact Inv_scheduleOnDisconnect _ _ (Inv_notify _ _ h)

theorem Inv_onConnectTimeout (st : MgrState) (h : Inv st) : Inv (onConnectTimeout st) := by
  unfold onConnectTimeout
  exact Inv_notify _ _ (Inv_eqFields rfl rfl rfl rfl h)

theorem Inv_connectAttemptSuccess (st : MgrState) (h : Inv st) :
    Inv (connectAttemptSuccess st) := by
  unfold connectAttemptSuccess
  refine Inv_eqFields ?_ ?_ ?_ ?_
      (Inv_onConnected { st with client := some ⟨true⟩ } (Inv_eqFields rfl rfl rfl rfl h)) <;>
    rfl

theorem Inv_connectAttemptFailure (st : MgrState) (h : Inv st) :
    Inv (connectAttemptFailure st) := by
  unfold connectAttemptFailure
  split
  · exact Inv_eqFields rfl rfl rfl rfl h
  · exact Inv_eqFields rfl rfl rfl rfl h

theorem Inv_connectRun (st : MgrState) (s w : Bool) (h : Inv st) :
    Inv (connectRun st s w).1 := by
  unfold connectRun
  split
  · exact h
  · split
    · exact h
    · split
      · exact Inv_connectAttemptSuccess _ (Inv_eqFields rfl rfl rfl rfl h)
      · exact Inv_connectAttemptFailure _ (Inv_eqFields rfl rfl rfl rfl h)

theorem Inv_teardown (st : MgrState) (h : Inv st) : Inv (teardown st) := by
  unfold teardown
  split
  · exact Inv_eqFields rfl rfl rfl rfl h
  · exact h

theorem Inv_reconnectRun (st : MgrState) (s w : Bool) (h : Inv st) :
    Inv (reconnectRun st s w).1 := by
  unfold reconnectRun
  split
  · exact Inv_eqFields rfl rfl rfl rfl h
  · split
    · exact Inv_eqFields rfl rfl rfl rfl h
    · exact Inv_connectRun _ _ _ (Inv_teardown _ (Inv_eqFields rfl rfl rfl rfl h))

theorem Inv_disconnectRun (st : MgrState) (t : Bool) (h : Inv st) :
    Inv (disconnectRun st t).1 := by
  unfold disconnectRun
  split
  · exact Inv_notify _ _ (Inv_eqFields rfl rfl rfl rfl h)
  · exact Inv_eqFields rfl rfl rfl rfl h

theorem Inv_applyOp (st : MgrState) (op : MgrOp) (h : Inv st) : Inv (applyOp st op) := by
  cases op with
  | addListener a => exact Inv_add st a h
  | connected => exact Inv_onConnected _ (Inv_eqFields rfl rfl rfl rfl h)
  | disconnected code => exact Inv_onDisconnected _ code (Inv_eqFields rfl rfl rfl rfl h)
  | connectTimeout => exact Inv_onConnectTimeout st h
  | connectCall s w => exact Inv_connectRun st s w h
  | reconnectCall s w => exact Inv_reconnectRun st s w h
  | disconnectCall t => exact Inv_disconnectRun st t h

theorem Inv_runOpsFrom (ops : List MgrOp) :
    ∀ st : MgrState, Inv st → Inv (runOpsFrom st ops) := by
  induction ops with
  | nil => intro st h; exact h
  | cons op rest ih =>
      intro st h
      exact ih (applyOp st op) (Inv_applyOp st op h)

theorem Inv_runOps (ops : List MgrOp) : Inv (runOps ops) :=
  Inv_runOpsFrom ops initialState Inv_initial

/-! ### Invariant for the small-step attempt model -/

theorem countP_set (p : FAttempt → Bool) :
    ∀ (ls : List FAttempt) (n : Nat) (a b : FAttempt), ls[n]? = some a →
      (ls.set n b).countP p + (if p a then 1 else 0) =
        ls.countP p + (if p b then 1 else 0) := by
  intro ls
  induction ls with
  | nil => intro n a b h; simp at h
  | cons x xs ih =>
      intro n a b h
      cases n with
      | zero =>
          simp only [List.getElem?_cons_zero, Option.some_inj] at h
          rw [← h, List.set_cons_zero, List.countP_cons, List.countP_cons]
          omega
      | succ m =>
          simp only [List.getElem?_cons_succ] at h
          rw [List.set_cons_succ, List.countP_cons, List.countP_cons]
          have := ih m a b h
          omega

theorem countP_append_singleton (p : FAttempt → Bool) (ls : List FAttempt) (a : FAttempt) :
    (ls ++ [a]).countP p = ls.countP p + (if p a then 1 else 0) := by
  rw [List.countP_append, List.countP_cons]
  simp [List.countP_nil]

theorem countP_pos_of_mem {p : FAttempt → Bool} {ls : List FAttempt} {a : FAttempt}
    (hmem : a ∈ ls) (hpa : p a = true) : 0 < ls.countP p := by
  induction ls with
  | nil => simp at hmem
  | cons x xs ih =>
      rw [List.countP_cons]
      rcases List.mem_cons.mp hmem with h | h
      · rw [← h, hpa]; simp
      · have := ih h; omega

theorem FInv_finit : FInv finit := by
  refine ⟨?_, ?_, ?_⟩ <;> simp [finit, inFlight]

theorem mem_of_get_some {α : Type} :
    ∀ (ls : List α) (n : Nat) (a : α), ls[n]? = some a → a ∈ ls := by
  intro ls
  induction ls with
  | nil => intro n a h; simp at h
  | cons x xs ih =>
      intro n a h
      cases n with
      | zero =>
          simp only [List.getElem?_cons_zero, Option.some_inj] at h
          rw [← h]
          exact List.mem_cons_self x xs
      | succ m =>
          simp only [List.getElem?_cons_succ] at h
          exact List.mem_cons_of_mem x (ih m a h)

theorem fstep_FInv (s s2 : FState) (ev : FEv) (hev : ev ≠ FEv.timeoutFire)
    (hinv : FInv s) (h : fstep s ev = some s2) : FInv s2 := by
  obtain ⟨hab, hle, hzero⟩ := hinv
  cases ev with
  | timeoutFire => exact absurd rfl hev
  | connectPoll =>
      simp only [fstep] at h
      split at h
      · injection h with h2
        rw [← h2]
        exact ⟨hab, hle, hzero⟩
      · exact Option.noConfusion h
  | connectStart =>
      simp only [fstep] at h
      split at h
      · rename_i hguard
        injection h with h2
        subst h2
        have hz : inFlight s = 0 := hzero hguard.2
        unfold inFlight at hz
        refine ⟨?_, ?_, ?_⟩
        · intro a ha
          rcases List.mem_append.mp ha with h1 | h1
          · exact hab a h1
          · rw [List.mem_singleton.mp h1]; simp
        · show inFlight _ ≤ 1
          unfold inFlight
          simp only
          rw [countP_append_singleton, hz]
          simp
        · intro hc
          simp at hc
      · exact Option.noConfusion h
  | settleOk n =>
      simp only [fstep] at h
      split at h
      · rename_i a hg
        split at h
        · rename_i hcond
          injection h with h2
          subst h2
          have hmem : a ∈ s.attempts := mem_of_get_some s.attempts n a hg
          have hpa : (fun x => x.status == AStat.pending) a = true := by
            simp [hcond.1]
          have hpos : 0 < inFlight s := countP_pos_of_mem hmem hpa
          have hcount := countP_set (fun x => x.status == AStat.pending)
            s.attempts n a ⟨AStat.settled, true, true⟩ hg
          simp only [hpa] at hcount
          simp at hcount
          unfold inFlight at hle hpos
          refine ⟨?_, ?_, ?_⟩
          · intro x hx
            rcases List.mem_or_eq_of_mem_set hx with h1 | h1
            · exact hab x h1
            · rw [h1]; simp
          · show inFlight _ ≤ 1
            unfold inFlight
            simp only
            omega
          · intro _
            show inFlight _ = 0
            unfold inFlight
            simp only
            omega
        · exact Option.noConfusion h
      · exact Option.noConfusion h
  | settleErr n =>
      simp only [fstep] at h
      split at h
      · rename_i a hg
        split at h
        · rename_i hcond
          injection h with h2
          subst h2
          have hmem : a ∈ s.attempts := mem_of_get_some s.attempts n a hg
          have hpend : a.status = AStat.pending := by
            rcases hcond.1 with h1 | h1
            · exact h1
            · exact absurd h1 (hab a hmem)
          have hpa : (fun x => x.status == AStat.pending) a = true := by
            simp [hpend]
          have hpos : 0 < inFlight s := countP_pos_of_mem hmem hpa
          have hcount := countP_set (fun x => x.status == AStat.pending)
            s.attempts n a ⟨AStat.settled, false, true⟩ hg
          simp only [hpa] at hcount
          simp at hcount
          unfold inFlight at hle hpos
          refine ⟨?_, ?_, ?_⟩
          · intro x hx
            rcases List.mem_or_eq_of_mem_set hx with h1 | h1
            · exact hab x h1
            · rw [h1]; simp
          · show inFlight _ ≤ 1
            unfold inFlight
            simp only
            omega
          · intro _
            show inFlight _ = 0
            unfold inFlight
            simp only
            omega
        · exact Option.noConfusion h
      · exact Option.noConfusion h

theorem frunFrom_FInv : ∀ (evs : List FEv) (s : FState), FEv.timeoutFire ∉ evs →
    FInv s → ∀ s2, frunFrom s evs = some s2 → FInv s2 := by
  intro evs
  induction evs with
  | nil =>
      intro s _ hinv s2 h
      unfold frunFrom at h
      cases h
      exact hinv
  | cons ev rest ih =>
      intro s hnot hinv s2 h
      unfold frunFrom at h
      cases hstep : fstep s ev with
      | none => rw [hstep] at h; cases h
      | some s1 =>
          rw [hstep] at h
          have hev : ev ≠ FEv.timeoutFire := by
            intro hc
            exact hnot (hc ▸ List.mem_cons_self ev rest)
          exact ih s1 (fun hc => hnot (List.mem_cons_of_mem ev hc))
            (fstep_FInv s s1 ev hev hinv hstep) s2 h

/-! ### Helper lemmas for the claim theorems -/

theorem connectAttemptSuccess_attempts (st : MgrState) :
    (connectAttemptSuccess st).reconnectAttempts = 0 := by
  show (onConnected { st with client := some ⟨true⟩ }).reconnectAttempts = 0
  unfold onConnected
  rw [notify_reconnectAttempts]

theorem connectAttemptFailure_attempts (st : MgrState) :
    (connectAttemptFailure st).reconnectAttempts =
      if st.reconnectAttempts < MAX_RECONNECT_ATTEMPTS then st.reconnectAttempts + 1
      else st.reconnectAttempts := by
  unfold connectAttemptFailure
  split <;> rfl

theorem connectRun_attempts (st : MgrState) (s w : Bool) :
    (connectRun st s w).1.reconnectAttempts =
      if isConnected st = true ∨ st.isConnecting = true then st.reconnectAttempts
      else if s = true then 0
      else if st.reconnectAttempts < MAX_RECONNECT_ATTEMPTS then st.reconnectAttempts + 1
      else st.reconnectAttempts := by
  by_cases h1 : isConnected st = true
  · simp [connectRun, h1]
  · by_cases h2 : st.isConnecting = true
    · simp [connectRun, h1, h2]
    · by_cases h3 : s = true
      · simp [connectRun, h1, h2, h3, connectAttemptSuccess_attempts]
      · simp [connectRun, h1, h2, h3, connectAttemptFailure_attempts, startAttempt]

theorem teardown_isConnecting (st : MgrState) :
    (teardown st).isConnecting = st.isConnecting := by
  unfold teardown
  split <;> rfl

theorem teardown_reconnectAttempts (st : MgrState) :
    (teardown st).reconnectAttempts = st.reconnectAttempts := by
  unfold teardown
  split <;> rfl

theorem teardown_notConnected (st : MgrState) :
    isConnected (teardown st) = false := by
  unfold teardown
  split
  · rfl
  · rename_i h
    unfold isConnected
    rw [h]

theorem teardown_armed_false (st : MgrState) :
    (teardown { st with connectTimeoutArmed := false }).connectTimeoutArmed = false := by
  unfold teardown
  split <;> rfl

theorem dispatchesFor_zero (b : Bool) :
    ∀ ls : List Listener, ls.countP (fun l => l.isAccessor) = 0 →
      dispatchesFor ls b = [] := by
  intro ls
  induction ls with
  | nil => intro _; rfl
  | cons l rest ih =>
      intro h
      rw [List.countP_cons] at h
      unfold dispatchesFor listenerDispatches
      cases hacc : l.isAccessor with
      | true =>
          rw [hacc, if_pos rfl] at h
          omega
      | false =>
          rw [hacc, if_neg (by simp)] at h
          simp only [Bool.false_eq_true, if_false, List.nil_append]
          exact ih (by omega)

theorem dispatchesFor_one (b : Bool) :
    ∀ ls : List Listener, ls.countP (fun l => l.isAccessor) = 1 →
      dispatchesFor ls b = [statusEventName b] := by
  intro ls
  induction ls with
  | nil => intro h; simp [List.countP_nil] at h
  | cons l rest ih =>
      intro h
      rw [List.countP_cons] at h
      unfold dispatchesFor listenerDispatches
      cases hacc : l.isAccessor with
      | true =>
          rw [hacc, if_pos rfl] at h
          have hz : rest.countP (fun l => l.isAccessor) = 0 := by omega
          rw [dispatchesFor_zero b rest hz]
          simp
      | false =>
          rw [hacc, if_neg (by simp)] at h
          simp only [Bool.false_eq_true, if_false, List.nil_append]
          exact ih (by omega)

/-! ### Claim theorems -/

/-- Claim C2: for every sequence of manager operations and transport
events, no registered connection listener is ever delivered the same
boolean value twice in a row by `notifyConnectionStatus`; the one
synchronous call made at registration time is excluded from the log, as
the claim exempts it. -/
theorem claim_C2_no_duplicate_notification (ops : List MgrOp) (lid : Nat) :
    List.Chain' (fun x y => x ≠ y) (notifyLog lid (runOps ops)) :=
  (Inv_runOps ops).2.2.2.2 lid

/-- Claim C5: `disconnect()` never rejects to its caller, and on return
the internal handle reference is cleared and `isConnected()` returns
`false`, even when the underlying transport disconnect throws (this
holds whether or not a handle was present, so in particular when one
was). -/
theorem claim_C5_disconnect_total (st : MgrState) (t : Bool) :
    (disconnectRun st t).2 = Except.ok () ∧
    (disconnectRun st t).1.client = none ∧
    isConnected (disconnectRun st t).1 = false := by
  unfold disconnectRun
  split
  · refine ⟨rfl, ?_, ?_⟩
    · rw [notify_client]
    · unfold isConnected
      rw [notify_client]
  · rename_i h
    refine ⟨rfl, h, ?_⟩
    unfold isConnected
    rw [show ({ st with connectTimeoutArmed := false } : MgrState).client
        = st.client from rfl, h]

/-- Claim C7: `addConnectionListener(cb)` appends `cb` to the listener
list and synchronously invokes it exactly once with the current boolean
connection status, for every registration, regardless of the
only-on-change suppression state (`lastNotified` is arbitrary and left
untouched). -/
theorem claim_C7_registration_callback (st : MgrState) (a : Bool) :
    (addConnectionListener st a).listeners
        = st.listeners ++ [⟨st.nextListenerId, a⟩] ∧
    (addConnectionListener st a).deliveries
        = st.deliveries ++ [⟨st.nextListenerId, isConnected st, true⟩] ∧
    (addConnectionListener st a).lastNotified = st.lastNotified :=
  ⟨rfl, rfl, rfl⟩

/-- Claim C1, counterexample: after three consecutive underlying
failures the accessor's `getClient()` raises the toast and fails
terminally, but the module-level failure counter is left at 3 rather
than being reset to zero; a fourth call that fails goes terminal
immediately (counter 4), not as a fresh counting sequence. -/
theorem claim_C1_counterexample :
    (accessorGetClient 0 [false, false, false]).outcome = AccOutcome.terminal ∧
    (accessorGetClient 0 [false, false, false]).toastShown = true ∧
    (accessorGetClient 0 [false, false, false]).failedAttempts = 3 ∧
    (accessorGetClient 0 [false, false, false]).failedAttempts ≠ 0 ∧
    (accessorGetClient 3 [false]).outcome = AccOutcome.terminal ∧
    (accessorGetClient 3 [false]).failedAttempts = 4 := by
  decide

/-- Claim C1, amended: when the module-level failure counter reaches its
ceiling (3), the accessor's `getClient()` raises a user-facing
notification and fails with a terminal error, but it does not reset the
counter — the counter keeps the incremented value; the counter is reset
to zero only by the accessor's connection listener when it observes a
connected status. -/
theorem claim_C1_amended :
    (∀ (fa : Nat) (rest : List Bool), ACCESSOR_MAX_RETRY ≤ fa + 1 →
        accessorGetClient fa (false :: rest)
          = ⟨fa + 1, AccOutcome.terminal, true⟩ ∧ fa + 1 ≠ 0) ∧
    (∀ (st : MgrState) (l : Listener), l.isAccessor = true →
        (invokeListener st l true false).failedAttempts = 0) := by
  constructor
  · intro fa rest h
    constructor
    · unfold accessorGetClient
      rw [if_neg (by simp), if_neg (by omega)]
    · omega
  · intro st l h
    unfold invokeListener
    simp [h]

/-- Claim C1, witness for the amended statement: at counter 2 one more
failure hits the ceiling, shows the toast and keeps the counter at 3;
the accessor's listener resets the counter on a connected status. -/
theorem claim_C1_witness :
    (accessorGetClient 2 [false] = ⟨3, AccOutcome.terminal, true⟩ ∧ (3 : Nat) ≠ 0) ∧
    (invokeListener initialState ⟨0, true⟩ true false).failedAttempts = 0 :=
  ⟨claim_C1_amended.1 2 [] (by decide),
   claim_C1_amended.2 initialState ⟨0, true⟩ rfl⟩

/-- Claim C3, counterexample: an explicit `reconnect()` call on an idle
manager whose underlying connect fails does modify the
automatic-reconnect attempt counter — it increments it from 0 to 1,
because the teardown-then-connect path delegates to `connect()`, whose
catch block increments the counter. -/
theorem claim_C3_counterexample :
    (reconnectRun initialState false false).1.reconnectAttempts = 1 ∧
    initialState.reconnectAttempts = 0 := by
  constructor
  · decide
  · rfl

/-- Claim C3, amended: `reconnect()`'s own body never touches the
automatic-reconnect attempt counter, and the already-connecting and
already-connected outcomes leave it unchanged; but the
teardown-then-connect outcome delegates to `connect()`, so on failure
the counter is incremented (below the ceiling) by the connect catch
block, and on success it is reset to zero by the `connected` event
handler. -/
theorem claim_C3_amended (st : MgrState) (s w : Bool) :
    (reconnectRun st s w).1.reconnectAttempts =
      if st.isConnecting = true ∨ isConnected st = true then st.reconnectAttempts
      else if s = true then 0
      else if st.reconnectAttempts < MAX_RECONNECT_ATTEMPTS then st.reconnectAttempts + 1
      else st.reconnectAttempts := by
  unfold reconnectRun
  by_cases h1 : st.isConnecting = true ∧ st.client.isSome = true
  · rw [if_pos h1, if_pos (Or.inl h1.1)]
  · rw [if_neg h1]
    by_cases h2 : isConnected st = true
    · rw [if_pos h2, if_pos (Or.inr h2)]
    · rw [if_neg h2]
      rw [connectRun_attempts, teardown_notConnected, teardown_isConnecting,
        teardown_reconnectAttempts]
      rw [show ({ st with connectTimeoutArmed := false } : MgrState).isConnecting
          = st.isConnecting from rfl,
        show ({ st with connectTimeoutArmed := false } : MgrState).reconnectAttempts
          = st.reconnectAttempts from rfl]
      by_cases h3 : st.isConnecting = true
      · rw [if_pos (Or.inr h3), if_pos (Or.inl h3)]
      · rw [if_neg (show ¬(false = true ∨ st.isConnecting = true) by simp [h3]),
          if_neg (show ¬(st.isConnecting = true ∨ isConnected st = true) by
            rintro (hc | hc)
            · exact h3 hc
            · exact h2 hc)]

/-- Claim C4: on `disconnected(code, reason)` the manager notifies
listeners with `false`; the attempt counter is incremented and a delayed
reconnect is scheduled exactly when the close code is neither 1000 nor
1001, no connect attempt is in flight, and the counter is below the
ceiling (5); past the ceiling, an abnormal closure only logs exhaustion;
a normal-closure code never schedules a reconnect. -/
theorem claim_C4_disconnected_handler (st : MgrState) (code : Nat) :
    (onDisconnected st code).lastNotified = some false ∧
    (onDisconnected st code).reconnectAttempts =
      (if code ≠ 1000 ∧ code ≠ 1001 ∧ st.isConnecting = false ∧
          st.reconnectAttempts < MAX_RECONNECT_ATTEMPTS
        then st.reconnectAttempts + 1 else st.reconnectAttempts) ∧
    (onDisconnected st code).scheduledReconnects =
      st.scheduledReconnects +
        (if code ≠ 1000 ∧ code ≠ 1001 ∧ st.isConnecting = false ∧
            st.reconnectAttempts < MAX_RECONNECT_ATTEMPTS
          then 1 else 0) ∧
    (onDisconnected st code).exhaustedLogs =
      st.exhaustedLogs +
        (if code ≠ 1000 ∧ code ≠ 1001 ∧ st.isConnecting = false ∧
            MAX_RECONNECT_ATTEMPTS ≤ st.reconnectAttempts
          then 1 else 0) := by
  unfold onDisconnected scheduleOnDisconnect
  rw [notify_isConnecting, notify_reconnectAttempts]
  by_cases hc : code ≠ 1000 ∧ code ≠ 1001 ∧ st.isConnecting = false
  · rw [if_pos hc]
    by_cases hlt : st.reconnectAttempts < MAX_RECONNECT_ATTEMPTS
    · rw [if_pos hlt, if_pos ⟨hc.1, hc.2.1, hc.2.2, hlt⟩,
        if_pos ⟨hc.1, hc.2.1, hc.2.2, hlt⟩,
        if_neg (fun hcon => absurd hcon.2.2.2 (by omega))]
      refine ⟨notify_lastNotified st false, ?_, ?_, ?_⟩ <;>
        simp [notify_reconnectAttempts, notify_scheduledReconnects,
          notify_exhaustedLogs]
    · rw [if_neg hlt, if_neg (fun hcon => absurd hcon.2.2.2 hlt),
        if_neg (fun hcon => absurd hcon.2.2.2 hlt),
        if_pos ⟨hc.1, hc.2.1, hc.2.2, by omega⟩]
      refine ⟨notify_lastNotified st false, ?_, ?_, ?_⟩ <;>
        simp [notify_reconnectAttempts, notify_scheduledReconnects,
          notify_exhaustedLogs]
  · rw [if_neg hc, if_neg (fun hcon => hc ⟨hcon.1, hcon.2.1, hcon.2.2.1⟩),
      if_neg (fun hcon => hc ⟨hcon.1, hcon.2.1, hcon.2.2.1⟩),
      if_neg (fun hcon => hc ⟨hcon.1, hcon.2.1, hcon.2.2.1⟩)]
    refine ⟨notify_lastNotified st false, ?_, ?_, ?_⟩ <;>
      simp [notify_reconnectAttempts, notify_scheduledReconnects,
        notify_exhaustedLogs]

/-- Claim C8: when a directly-awaited `connect()` takes the fresh
attempt path and the underlying transport connect rejects, the catch
block increments the automatic-reconnect attempt counter and schedules a
delayed reconnect before rethrowing, provided the counter is below the
ceiling (5). -/
theorem claim_C8_connect_failure_self_heals (st : MgrState) (w : Bool)
    (h1 : isConnected st = false) (h2 : st.isConnecting = false)
    (h3 : st.reconnectAttempts < MAX_RECONNECT_ATTEMPTS) :
    (connectRun st false w).2 = ConnectOutcome.err ∧
    (connectRun st false w).1.reconnectAttempts = st.reconnectAttempts + 1 ∧
    (connectRun st false w).1.scheduledReconnects = st.scheduledReconnects + 1 := by
  unfold connectRun
  rw [if_neg (by simp [h1]), if_neg (by simp [h2]), if_neg (by simp)]
  unfold connectAttemptFailure startAttempt
  rw [if_pos (show ({ st with isConnecting := true, connectTimeoutArmed := true, client := some ⟨false⟩ } : MgrState).reconnectAttempts < MAX_RECONNECT_ATTEMPTS from h3)]
  exact ⟨rfl, rfl, rfl⟩

/-- Claim C8, witness: a fresh manager with a failing transport connect
ends with counter 1 and one scheduled reconnect, and the call rejects. -/
theorem claim_C8_witness :
    (connectRun initialState false false).2 = ConnectOutcome.err ∧
    (connectRun initialState false false).1.reconnectAttempts = 0 + 1 ∧
    (connectRun initialState false false).1.scheduledReconnects = 0 + 1 :=
  claim_C8_connect_failure_self_heals initialState false rfl rfl (by decide)

/-- Claim C9: on a genuine status transition, with the accessor's
listener among the registered listeners (exactly one accessor listener,
as `setupConnectionEvents` installs), the corresponding browser event is
dispatched twice — once by the accessor's listener and once by
`notifyConnectionStatus` itself. -/
theorem claim_C9_double_dispatch (st : MgrState) (b : Bool)
    (hacc : st.listeners.countP (fun l => l.isAccessor) = 1)
    (hg : st.lastNotified ≠ some b) :
    (notifyConnectionStatus st b).dispatchLog =
      st.dispatchLog ++ [statusEventName b, statusEventName b] := by
  rw [notify_dispatchLog st b hg, dispatchesFor_one b st.listeners hacc]
  simp

/-- Claim C9, witness: the manager as configured by the accessor (a
single accessor listener) dispatches `xrpl-connected` twice on the first
connected transition. -/
theorem claim_C9_witness :
    (notifyConnectionStatus accessorManagerState true).dispatchLog
      = accessorManagerState.dispatchLog
        ++ [statusEventName true, statusEventName true] :=
  claim_C9_double_dispatch accessorManagerState true (by decide) (by decide)

/-- Claim C10: `reconnect()` clears any pending connect-timeout as its
first action; in particular, when a connect attempt is in flight
(`isConnecting` with a handle present) it disarms that attempt's timeout
and then only waits — the state is otherwise unchanged. -/
theorem claim_C10_reconnect_clears_timeout :
    (∀ (st : MgrState) (s w : Bool),
        (reconnectRun st s w).1.connectTimeoutArmed = false) ∧
    (∀ (st : MgrState) (s w : Bool), st.isConnecting = true →
        st.client.isSome = true →
        reconnectRun st s w = ({ st with connectTimeoutArmed := false },
          if w = true then ConnectOutcome.ok else ConnectOutcome.err)) := by
  constructor
  · intro st s w
    unfold reconnectRun
    split
    · rfl
    · split
      · rfl
      · unfold connectRun
        split
        · exact teardown_armed_false st
        · split
          · exact teardown_armed_false st
          · split
            · rfl
            · unfold connectAttemptFailure
              split <;> rfl
  · intro st s w h1 h2
    unfold reconnectRun
    rw [if_pos ⟨h1, h2⟩]

/-- Claim C10, witness: with an attempt in flight and the timeout armed,
`reconnect()` returns the state unchanged except for the disarmed
timeout. -/
theorem claim_C10_witness :
    (reconnectRun connectingState false false).1.connectTimeoutArmed = false ∧
    reconnectRun connectingState false false
      = ({ connectingState with connectTimeoutArmed := false },
         if false = true then ConnectOutcome.ok else ConnectOutcome.err) :=
  ⟨claim_C10_reconnect_clears_timeout.1 connectingState false false,
   claim_C10_reconnect_clears_timeout.2 connectingState false false rfl rfl⟩

/-- Claim C6, counterexample: two underlying transport connect attempts
can be in flight at once.  After a connect attempt is aborted by the
connect timeout, its rejection continuation runs later and clears the
`isConnecting` flag armed by a newer attempt; a further `connect()` call
then issues a second transport connect while the newer attempt is still
pending. -/
theorem claim_C6_counterexample :
    (frun [FEv.connectStart, FEv.timeoutFire, FEv.connectStart,
           FEv.settleErr 0, FEv.connectStart]).map inFlight = some 2 := by
  decide

/-- Claim C6, amended: while `isConnecting` is set, a `connect()` call
never issues a second underlying transport connect — the fresh-attempt
branch is disabled and the polling wait leaves the state unchanged; and
in every execution in which the connect timeout never fires, at most one
underlying transport connect attempt is in flight in every reachable
state. -/
theorem claim_C6_amended :
    (∀ s : FState, s.isConnecting = true →
        fstep s FEv.connectStart = none ∧ fstep s FEv.connectPoll = some s) ∧
    (∀ (evs : List FEv) (s : FState), FEv.timeoutFire ∉ evs →
        frun evs = some s → inFlight s ≤ 1) := by
  constructor
  · intro s h
    constructor
    · simp only [fstep]
      rw [if_neg (fun hcon => by
        rw [hcon.2] at h
        exact Bool.noConfusion h)]
    · simp only [fstep]
      rw [if_pos h]
  · intro evs s hno h
    exact (frunFrom_FInv evs finit hno FInv_finit s h).2.1

/-- Claim C6, witness for the amended statement: after one
`connectStart` the single attempt is in flight, `isConnecting` is set,
and a second `connect()` call cannot start another attempt. -/
theorem claim_C6_witness :
    inFlight oneAttemptState ≤ 1 ∧
    fstep oneAttemptState FEv.connectStart = none :=
  ⟨claim_C6_amended.2 [FEv.connectStart] oneAttemptState (by decide) (by decide),
   (claim_C6_amended.1 oneAttemptState rfl).1⟩

end RC
